import Mathlib

/-!
Shallow embedding of the task-management API backend.

The relational store is modelled as in-memory lists of rows; each model
operation (`Task.create`, `Task.findAll`, `Task.findById`, `Task.update`,
`Task.delete`, `Task.getStats`, `User.create`, `User.findByEmail`,
`User.findById`, `User.findAll`, `User.update`) is translated from the SQL
statement it executes in `src/backend/src/models/Task.js`.  Timestamps are
naturals; `rows[0]` becomes `List.head?`; an absent JavaScript argument
(`undefined`) becomes `Option.none`.
-/

/-- A password column value.  `bcryptjs`'s `hash` is an external library
call; its digest is modelled symbolically as a constructor carrying the
input, the cost factor and the random salt, structurally distinct from any
plaintext string (a real bcrypt digest is a fixed-format `$2b$...` string,
never the plaintext). -/
inductive PasswordValue where
  | plain (s : String)
  | bcrypt (input : String) (cost : Nat) (salt : Nat)
  deriving DecidableEq, Repr

/-- A row of the `users` table (migration in the repository's config). -/
structure UserRow where
  id : Nat
  name : String
  email : String
  password : PasswordValue
  role : String
  created_at : Nat
  updated_at : Nat
  deriving DecidableEq, Repr

/-- A row of the `tasks` table.  `description` is nullable (`TEXT`). -/
structure TaskRow where
  id : Nat
  title : String
  description : Option String
  status : String
  priority : String
  user_id : Nat
  created_at : Nat
  updated_at : Nat
  deriving DecidableEq, Repr

/-- The persistent store: both tables. -/
structure Db where
  users : List UserRow
  tasks : List TaskRow
  deriving DecidableEq, Repr

/-- A row of `SELECT t.*, u.name as user_name, u.email as user_email FROM
tasks t JOIN users u ON t.user_id = u.id`. -/
structure JoinedTaskRow where
  task : TaskRow
  user_name : String
  user_email : String
  deriving DecidableEq, Repr

/-- The inner join of `tasks` with `users` on `t.user_id = u.id`; a task
whose owner row is missing produces no row. -/
def joinTasks (db : Db) : List JoinedTaskRow :=
  db.tasks.filterMap fun t =>
    (db.users.find? fun u => u.id == t.user_id).map fun u =>
      ⟨t, u.name, u.email⟩

/-- `ORDER BY t.created_at DESC` as a relation on joined rows. -/
def createdDesc (a b : JoinedTaskRow) : Prop :=
  b.task.created_at ≤ a.task.created_at

instance : DecidableRel createdDesc := fun a b =>
  Nat.decLe b.task.created_at a.task.created_at

instance : IsTotal JoinedTaskRow createdDesc :=
  ⟨fun a b => Nat.le_total b.task.created_at a.task.created_at⟩

instance : IsTrans JoinedTaskRow createdDesc :=
  ⟨fun _ _ _ hab hbc => Nat.le_trans hbc hab⟩

/-- Fields of a task-creation request; the controller passes
`title, description, status, priority` straight from the request body, any
of which may be absent (`undefined`). -/
structure TaskCreateReq where
  title : String
  description : Option String
  status : Option String
  priority : Option String
  deriving DecidableEq, Repr

/-- Fields of a task-update request.  `none` means the field is absent
from the request; for the nullable `description` column `some none`
sets the column to NULL. -/
structure TaskUpdateReq where
  title : Option String
  description : Option (Option String)
  status : Option String
  priority : Option String
  deriving DecidableEq, Repr

/-- `updates.length === 0`: no recognised field was present. -/
def TaskUpdateReq.isEmpty (r : TaskUpdateReq) : Bool :=
  r.title.isNone && r.description.isNone && r.status.isNone && r.priority.isNone

/-- The next `SERIAL` id for the `tasks` table. -/
def nextTaskId (db : Db) : Nat :=
  (db.tasks.map (·.id)).foldr max 0 + 1

namespace Task

/-- `Task.create`: `INSERT INTO tasks ... RETURNING *`, with the
JavaScript destructuring defaults `status = 'pending'`,
`priority = 'medium'` applied when the field is absent. -/
def create (db : Db) (req : TaskCreateReq) (user_id : Nat) (now : Nat) :
    Db × TaskRow :=
  let row : TaskRow :=
    { id := nextTaskId db
      title := req.title
      description := req.description
      status := req.status.getD "pending"
      priority := req.priority.getD "medium"
      user_id := user_id
      created_at := now
      updated_at := now }
  (⟨db.users, db.tasks ++ [row]⟩, row)

/-- `Task.findAll`: join, then (unless admin) `WHERE t.user_id = $1`,
then `ORDER BY t.created_at DESC`. -/
def findAll (db : Db) (userId : Nat) (isAdmin : Bool) : List JoinedTaskRow :=
  let rows := joinTasks db
  let rows := if isAdmin then rows else rows.filter fun r => r.task.user_id == userId
  List.insertionSort createdDesc rows

/-- `Task.findById`: join, `WHERE t.id = $1` and (unless admin)
`AND t.user_id = $2`; `result.rows[0]`. -/
def findById (db : Db) (id userId : Nat) (isAdmin : Bool) : Option JoinedTaskRow :=
  ((joinTasks db).filter fun r =>
    r.task.id == id && (isAdmin || r.task.user_id == userId)).head?

/-- The `SET` clause list applied to one row: each field present in the
request overwrites the column, plus `updated_at = CURRENT_TIMESTAMP`. -/
def applyUpdate (t : TaskRow) (req : TaskUpdateReq) (now : Nat) : TaskRow :=
  { t with
    title := req.title.getD t.title
    description := req.description.getD t.description
    status := req.status.getD t.status
    priority := req.priority.getD t.priority
    updated_at := now }

/-- `Task.update`: returns `null` when no field is present
(`updates.length === 0`), else runs `UPDATE tasks SET ... WHERE id = $n`
and (unless admin) `AND user_id = $n+1`, `RETURNING *`, yielding
`rows[0]`. -/
def update (db : Db) (id userId : Nat) (isAdmin : Bool) (req : TaskUpdateReq)
    (now : Nat) : Db × Option TaskRow :=
  if req.isEmpty then (db, none)
  else
    (⟨db.users, db.tasks.map fun t =>
        if t.id == id && (isAdmin || t.user_id == userId)
        then applyUpdate t req now else t⟩,
     ((db.tasks.filter fun t =>
        t.id == id && (isAdmin || t.user_id == userId)).head?).map
       fun t => applyUpdate t req now)

/-- `Task.delete`: `DELETE FROM tasks WHERE id = $1` and (unless admin)
`AND user_id = $2`, `RETURNING id`; yields `rows[0]`'s id. -/
def delete (db : Db) (id userId : Nat) (isAdmin : Bool) : Db × Option Nat :=
  (⟨db.users, db.tasks.filter fun t =>
      !(t.id == id && (isAdmin || t.user_id == userId))⟩,
   ((db.tasks.filter fun t =>
      t.id == id && (isAdmin || t.user_id == userId)).head?).map (·.id))

/-- The aggregate row of `Task.getStats`. -/
structure Stats where
  total : Nat
  pending : Nat
  in_progress : Nat
  completed : Nat
  deriving DecidableEq, Repr

/-- `Task.getStats`: counts over `tasks`, restricted by
`WHERE user_id = $1` unless admin (no join here). -/
def getStats (db : Db) (userId : Nat) (isAdmin : Bool) : Stats :=
  let scope := if isAdmin then db.tasks else db.tasks.filter fun t => t.user_id == userId
  { total := scope.length
    pending := scope.countP fun t => t.status == "pending"
    in_progress := scope.countP fun t => t.status == "in_progress"
    completed := scope.countP fun t => t.status == "completed" }

end Task

/-- The public projection `id, name, email, role, created_at` returned by
`User.create`, `User.findById` and `User.findAll`. -/
structure UserPublic where
  id : Nat
  name : String
  email : String
  role : String
  created_at : Nat
  deriving DecidableEq, Repr

/-- The projection `id, name, email, role, updated_at` returned by
`User.update`. -/
structure UserUpdateRet where
  id : Nat
  name : String
  email : String
  role : String
  updated_at : Nat
  deriving DecidableEq, Repr

/-- A registration request; `role` defaults to `'user'` when absent. -/
structure RegisterReq where
  name : String
  email : String
  password : String
  role : Option String
  deriving DecidableEq, Repr

/-- A user-update request; `none` means the field is absent. -/
structure UserUpdateReq where
  name : Option String
  email : Option String
  role : Option String
  deriving DecidableEq, Repr

def UserUpdateReq.isEmpty (r : UserUpdateReq) : Bool :=
  r.name.isNone && r.email.isNone && r.role.isNone

/-- The next `SERIAL` id for the `users` table. -/
def nextUserId (db : Db) : Nat :=
  (db.users.map (·.id)).foldr max 0 + 1

def UserRow.toPublic (u : UserRow) : UserPublic :=
  ⟨u.id, u.name, u.email, u.role, u.created_at⟩

/-- `ORDER BY created_at DESC` on user rows. -/
def userCreatedDesc (a b : UserRow) : Prop :=
  b.created_at ≤ a.created_at

instance : DecidableRel userCreatedDesc := fun a b =>
  Nat.decLe b.created_at a.created_at

instance : IsTotal UserRow userCreatedDesc :=
  ⟨fun a b => Nat.le_total b.created_at a.created_at⟩

instance : IsTrans UserRow userCreatedDesc :=
  ⟨fun _ _ _ hab hbc => Nat.le_trans hbc hab⟩

/-- The row inserted by `User.create`: the password column receives
`bcrypt.hash(password, 10)`, never the plaintext. -/
def mkUserRow (db : Db) (req : RegisterReq) (salt now : Nat) : UserRow :=
  { id := nextUserId db
    name := req.name
    email := req.email
    password := PasswordValue.bcrypt req.password 10 salt
    role := req.role.getD "user"
    created_at := now
    updated_at := now }

namespace User

/-- `User.create`: hashes the password with bcrypt (cost 10, fresh random
salt `salt`), inserts the row, and returns only
`id, name, email, role, created_at` (the `RETURNING` list). -/
def create (db : Db) (req : RegisterReq) (salt now : Nat) : Db × UserPublic :=
  let row := mkUserRow db req salt now
  (⟨db.users ++ [row], db.tasks⟩, row.toPublic)

/-- `User.findByEmail`: `SELECT * FROM users WHERE email = $1`; the full
row, password column included — the internal lookup used for login. -/
def findByEmail (db : Db) (email : String) : Option UserRow :=
  (db.users.filter fun u => u.email == email).head?

/-- `User.findById`: `SELECT id, name, email, role, created_at FROM users
WHERE id = $1`. -/
def findById (db : Db) (id : Nat) : Option UserPublic :=
  ((db.users.filter fun u => u.id == id).head?).map UserRow.toPublic

/-- `User.findAll`: the same projection over every row,
`ORDER BY created_at DESC`. -/
def findAll (db : Db) : List UserPublic :=
  (List.insertionSort userCreatedDesc db.users).map UserRow.toPublic

/-- The `SET` clauses of `User.update` applied to one row. -/
def applyUserUpdate (u : UserRow) (req : UserUpdateReq) (now : Nat) : UserRow :=
  { u with
    name := req.name.getD u.name
    email := req.email.getD u.email
    role := req.role.getD u.role
    updated_at := now }

/-- `User.update`: `null` when no field is present, else
`UPDATE users SET ... WHERE id = $n RETURNING id, name, email, role,
updated_at`. -/
def update (db : Db) (id : Nat) (req : UserUpdateReq) (now : Nat) :
    Db × Option UserUpdateRet :=
  if req.isEmpty then (db, none)
  else
    let f := fun u : UserRow => u.id == id
    (⟨db.users.map fun u => if f u then applyUserUpdate u req now else u, db.tasks⟩,
     ((db.users.filter f).head?).map fun u =>
       let u := applyUserUpdate u req now
       ⟨u.id, u.name, u.email, u.role, u.updated_at⟩)

end User

/-- Rewrites every stored password through `f`, leaving all other columns
untouched; used to state that an operation's output does not depend on the
password column. -/
def mapPasswords (f : PasswordValue → PasswordValue) (db : Db) : Db :=
  ⟨db.users.map fun u => { u with password := f u.password }, db.tasks⟩

/-- The token payload: `generateToken` is called with the user's id and
role. -/
structure JwtPayload where
  id : Nat
  role : String
  deriving DecidableEq, Repr

/-- `process.env.JWT_SECRET || 'your-super-secret-jwt-key'`. -/
def JWT_SECRET : String := "your-super-secret-jwt-key"

/-- `JWT_EXPIRE = '24h'`, in seconds. -/
def JWT_EXPIRE_SECONDS : Nat := 24 * 60 * 60

/-- A signed JWT, modelled symbolically: the payload, the signing secret
and the `iat`/`exp` claims.  `jsonwebtoken`'s HMAC signature is modelled
by carrying the secret; verification compares it (assuming no forgery). -/
structure SignedToken where
  payload : JwtPayload
  secret : String
  iat : Nat
  exp : Nat
  deriving DecidableEq, Repr

/-- `generateToken`: `jwt.sign(payload, JWT_SECRET, { expiresIn:
JWT_EXPIRE })` at clock second `now`. -/
def generateToken (payload : JwtPayload) (now : Nat) : SignedToken :=
  ⟨payload, JWT_SECRET, now, now + JWT_EXPIRE_SECONDS⟩

/-- `verifyToken`: `jwt.verify(token, JWT_SECRET)`, returning `null` on
any signature or expiry failure (a token is expired once the clock
reaches `exp`). -/
def verifyToken (tok : SignedToken) (now : Nat) : Option JwtPayload :=
  if tok.secret = JWT_SECRET ∧ now < tok.exp then some tok.payload else none

/-- `windowMs: 15 * 60 * 1000`. -/
def RATE_LIMIT_WINDOW_MS : Nat := 15 * 60 * 1000

/-- `max: 100`. -/
def RATE_LIMIT_MAX : Nat := 100

/-- `express-rate-limit` memory-store state for one client: the index of
the current fixed window (the store's interval timer resets all counts
every `windowMs`, so windows are the intervals `[k·windowMs, (k+1)·windowMs)`)
and the number of requests counted in it. -/
structure LimiterState where
  window : Nat
  count : Nat
  deriving DecidableEq, Repr

/-- One request at millisecond `t`: the hit counter is reset if the window
has rolled over, incremented, and the request is served iff the counter
does not exceed `max`; otherwise the middleware answers 429. -/
def rlStep (s : LimiterState) (t : Nat) : LimiterState × Bool :=
  let w := t / RATE_LIMIT_WINDOW_MS
  let c := if w = s.window then s.count + 1 else 1
  (⟨w, c⟩, decide (c ≤ RATE_LIMIT_MAX))

/-- Run the limiter from state `s` over a trace of request times, pairing
each request with whether it was served (`true`) or rejected with 429. -/
def rlRunFrom (s : LimiterState) : List Nat → List (Nat × Bool)
  | [] => []
  | t :: rest =>
    let p := rlStep s t
    (t, p.2) :: rlRunFrom p.1 rest

/-- Run the limiter from server start. -/
def rlRun (trace : List Nat) : List (Nat × Bool) :=
  rlRunFrom ⟨0, 0⟩ trace

/-- The number of requests served whose time falls in fixed window `w`. -/
def servedInWindow (out : List (Nat × Bool)) (w : Nat) : Nat :=
  (out.filter fun p => p.2 && (p.1 / RATE_LIMIT_WINDOW_MS == w)).length

/-- The times of the served requests of a run. -/
def servedTimes (trace : List Nat) : List Nat :=
  (rlRun trace).filterMap fun p => if p.2 then some p.1 else none

/-- A small concrete store used to instantiate theorems: two users (a
member and an administrator) and two tasks with distinct owners. -/
def sampleDb : Db :=
  ⟨[⟨1, "alice", "alice@x.com", PasswordValue.bcrypt "pw1" 10 3, "user", 0, 0⟩,
    ⟨2, "bob", "bob@x.com", PasswordValue.bcrypt "pw2" 10 4, "admin", 1, 1⟩],
   [⟨1, "write spec", some "draft it", "pending", "medium", 1, 5, 5⟩,
    ⟨2, "review spec", none, "in_progress", "high", 2, 9, 9⟩]⟩

/-- A trace of 200 requests from one source, 100 at millisecond 899999
and 100 at millisecond 900000, which straddles the limiter's window
boundary. -/
def slidingTrace : List Nat :=
  List.replicate 100 899999 ++ List.replicate 100 900000

/-! ### Helper lemmas -/

/-- `rows[0]` of a filtered list exists iff some row passes the filter. -/
lemma filter_head_isSome {α : Type} (l : List α) (p : α → Bool) :
    ((l.filter p).head?).isSome = true ↔ ∃ x ∈ l, p x = true := by
  induction l with
  | nil => simp
  | cons a l ih =>
    by_cases h : p a
    · simp [List.filter_cons, h]
    · simp [List.filter_cons, h, ih]

/-- Under referential integrity the join keeps every task exactly once. -/
lemma joinTasks_map_task (db : Db)
    (hRI : ∀ t ∈ db.tasks, ∃ u ∈ db.users, u.id = t.user_id) :
    (joinTasks db).map (·.task) = db.tasks := by
  obtain ⟨users, tasks⟩ := db
  induction tasks with
  | nil => simp [joinTasks]
  | cons t ts ih =>
    obtain ⟨u, hu, huid⟩ := hRI t (by simp)
    have hfind : (users.find? fun u => u.id == t.user_id).isSome = true :=
      List.find?_isSome.mpr ⟨u, hu, by simp [huid]⟩
    obtain ⟨u', hu'⟩ := Option.isSome_iff_exists.mp hfind
    have := ih (fun t' ht' => hRI t' (by simp [ht']))
    simpa [joinTasks, List.filterMap_cons, hu'] using this

/-- Transfer an existential over joined rows to one over task rows. -/
lemma exists_joined_iff (db : Db)
    (hRI : ∀ t ∈ db.tasks, ∃ u ∈ db.users, u.id = t.user_id)
    (P : TaskRow → Prop) :
    (∃ r ∈ joinTasks db, P r.task) ↔ ∃ t ∈ db.tasks, P t := by
  constructor
  · rintro ⟨r, hr, h⟩
    refine ⟨r.task, ?_, h⟩
    rw [← joinTasks_map_task db hRI]
    exact List.mem_map_of_mem _ hr
  · rintro ⟨t, ht, h⟩
    rw [← joinTasks_map_task db hRI] at ht
    obtain ⟨r, hr, rfl⟩ := List.mem_map.mp ht
    exact ⟨r, hr, h⟩

/-- When task ids are unique, filtering on a member's id yields exactly
that member (or nothing, if the extra conjunct rejects it). -/
lemma filter_by_id_of_nodup (tasks : List TaskRow) (t : TaskRow)
    (q : TaskRow → Bool)
    (hnd : (tasks.map (·.id)).Nodup) (ht : t ∈ tasks) :
    tasks.filter (fun x => x.id == t.id && q x) = if q t then [t] else [] := by
  induction tasks with
  | nil => cases ht
  | cons a ts ih =>
    simp only [List.map_cons, List.nodup_cons] at hnd
    rcases List.mem_cons.mp ht with rfl | hts
    · have hrest : ts.filter (fun x => x.id == t.id && q x) = [] := by
        refine List.filter_eq_nil_iff.mpr fun x hx => ?_
        have : x.id ≠ t.id := fun he => hnd.1 (he ▸ List.mem_map_of_mem _ hx)
        simp [this]
      by_cases hq : q t
      · simp [List.filter_cons, hq, hrest]
      · simp [List.filter_cons, hq, hrest]
    · have : a.id ≠ t.id := by
        intro he
        exact hnd.1 (he ▸ List.mem_map_of_mem (·.id) hts)
      simp only [List.filter_cons, this, bne_iff_ne]
      simpa [this] using ih hnd.2 hts

/-! ### Claims -/

/-- C9: for administrators the output of `Task.findAll` and
`Task.getStats` does not depend on the principal's user id: any two admin
principals over the same store receive identical results. -/
theorem admin_output_independent_of_userId (db : Db) (uid1 uid2 : Nat) :
    Task.findAll db uid1 true = Task.findAll db uid2 true ∧
    Task.getStats db uid1 true = Task.getStats db uid2 true :=
  ⟨rfl, rfl⟩

/-- C5: `Task.create` inserts a row owned by the requesting principal, and
the row's status is `pending` and priority `medium` whenever those fields
are absent from the request. -/
theorem create_owner_and_defaults (db : Db) (req : TaskCreateReq)
    (uid now : Nat) :
    (Task.create db req uid now).1.tasks
      = db.tasks ++ [(Task.create db req uid now).2] ∧
    (Task.create db req uid now).2.user_id = uid ∧
    (req.status = none → (Task.create db req uid now).2.status = "pending") ∧
    (req.priority = none → (Task.create db req uid now).2.priority = "medium") := by
  refine ⟨rfl, rfl, fun h => ?_, fun h => ?_⟩ <;> simp [Task.create, h]

/-- Witness for C5 at a concrete request with both fields absent. -/
theorem create_owner_and_defaults_witness :
    (Task.create ⟨[], []⟩ ⟨"t", none, none, none⟩ 5 9).2.status = "pending" ∧
    (Task.create ⟨[], []⟩ ⟨"t", none, none, none⟩ 5 9).2.priority = "medium" :=
  ⟨(create_owner_and_defaults ⟨[], []⟩ ⟨"t", none, none, none⟩ 5 9).2.2.1 rfl,
   (create_owner_and_defaults ⟨[], []⟩ ⟨"t", none, none, none⟩ 5 9).2.2.2 rfl⟩

/-- C6: verifying a token generated from a user id and role, at any clock
before the token's expiry, succeeds and returns the same id and role. -/
theorem token_roundtrip (id : Nat) (role : String) (iat now : Nat)
    (h : now < iat + JWT_EXPIRE_SECONDS) :
    verifyToken (generateToken ⟨id, role⟩ iat) now = some ⟨id, role⟩ := by
  simp [verifyToken, generateToken, h]

/-- Witness for C6 one second before expiry. -/
theorem token_roundtrip_witness :
    verifyToken (generateToken ⟨1, "user"⟩ 0) 86399 = some ⟨1, "user"⟩ :=
  token_roundtrip 1 "user" 0 86399 (by decide)

/-- C8: `User.create` stores as the password column the bcrypt digest of
the submitted plaintext (cost 10), which is never the plaintext itself. -/
theorem register_stores_bcrypt_hash (db : Db) (req : RegisterReq)
    (salt now : Nat) :
    (User.create db req salt now).1.users
      = db.users ++ [mkUserRow db req salt now] ∧
    (mkUserRow db req salt now).password
      = PasswordValue.bcrypt req.password 10 salt ∧
    (mkUserRow db req salt now).password ≠ PasswordValue.plain req.password :=
  ⟨rfl, rfl, fun h => PasswordValue.noConfusion h⟩

/-- C2: `Task.findAll` returns (a permutation of) all tasks for an
administrator and exactly the principal's own tasks otherwise, and its
output is sorted by creation time, descending. -/
theorem findAll_scope_and_order (db : Db) (uid : Nat) (admin : Bool)
    (hRI : ∀ t ∈ db.tasks, ∃ u ∈ db.users, u.id = t.user_id) :
    ((Task.findAll db uid admin).map (·.task)).Perm
      (if admin then db.tasks else db.tasks.filter fun t => t.user_id == uid) ∧
    List.Sorted createdDesc (Task.findAll db uid admin) := by
  constructor
  · cases admin with
    | true =>
      have h := (List.perm_insertionSort createdDesc (joinTasks db)).map (·.task)
      rw [joinTasks_map_task db hRI] at h
      simpa [Task.findAll] using h
    | false =>
      have h := (List.perm_insertionSort createdDesc
        ((joinTasks db).filter fun r => r.task.user_id == uid)).map (·.task)
      have heq : ((joinTasks db).filter fun r => r.task.user_id == uid).map (·.task)
          = db.tasks.filter fun t => t.user_id == uid := by
        have := List.filter_map (fun r : JoinedTaskRow => r.task)
          (l := joinTasks db) (p := fun t => t.user_id == uid)
        rw [joinTasks_map_task db hRI] at this
        exact this.symm
      rw [heq] at h
      simpa [Task.findAll] using h
  · cases admin with
    | true => exact List.sorted_insertionSort createdDesc _
    | false => exact List.sorted_insertionSort createdDesc _

/-- Witness for C2 at the concrete sample store, as a member and as an
administrator. -/
theorem findAll_scope_and_order_witness :
    ((Task.findAll sampleDb 1 false).map (·.task)).Perm
      (sampleDb.tasks.filter fun t => t.user_id == 1) ∧
    List.Sorted createdDesc (Task.findAll sampleDb 2 true) :=
  ⟨(findAll_scope_and_order sampleDb 1 false (by decide)).1,
   (findAll_scope_and_order sampleDb 2 true (by decide)).2⟩

/-- C1 (amended): fetch-by-id and delete succeed exactly when a task with
that id exists and the principal is an administrator or its owner — and
`update` does too, provided at least one updatable field is present in the
request; in every other case the operation yields no row (the controller
then answers 404 and no task body is returned). -/
theorem single_task_ops_access (db : Db) (tid uid : Nat) (admin : Bool)
    (req : TaskUpdateReq) (now : Nat)
    (hRI : ∀ t ∈ db.tasks, ∃ u ∈ db.users, u.id = t.user_id)
    (hreq : req.isEmpty = false) :
    ((Task.findById db tid uid admin).isSome = true ↔
      ∃ t ∈ db.tasks, t.id = tid ∧ (admin = true ∨ t.user_id = uid)) ∧
    (((Task.update db tid uid admin req now).2).isSome = true ↔
      ∃ t ∈ db.tasks, t.id = tid ∧ (admin = true ∨ t.user_id = uid)) ∧
    (((Task.delete db tid uid admin).2).isSome = true ↔
      ∃ t ∈ db.tasks, t.id = tid ∧ (admin = true ∨ t.user_id = uid)) := by
  refine ⟨?_, ?_, ?_⟩
  · rw [Task.findById, filter_head_isSome]
    have h := exists_joined_iff db hRI
      (fun t => (t.id == tid && (admin || t.user_id == uid)) = true)
    exact h.trans (by simp)
  · simp only [Task.update, hreq, Bool.false_eq_true, if_false,
      Option.isSome_map']
    rw [filter_head_isSome]
    simp
  · simp only [Task.delete, Option.isSome_map']
    rw [filter_head_isSome]
    simp

/-- Witness for C1 at the sample store: user 1 fetching and deleting its
own task 1. -/
theorem single_task_ops_access_witness :
    ((Task.findById sampleDb 1 1 false).isSome = true ↔
      ∃ t ∈ sampleDb.tasks, t.id = 1 ∧ (false = true ∨ t.user_id = 1)) ∧
    (((Task.delete sampleDb 1 1 false).2).isSome = true ↔
      ∃ t ∈ sampleDb.tasks, t.id = 1 ∧ (false = true ∨ t.user_id = 1)) :=
  ⟨(single_task_ops_access sampleDb 1 1 false ⟨some "x", none, none, none⟩ 7
      (by decide) (by decide)).1,
   (single_task_ops_access sampleDb 1 1 false ⟨some "x", none, none, none⟩ 7
      (by decide) (by decide)).2.2⟩

/-- Counterexample to C1 as stated: user 1 is the owner of existing task
1, yet `update` with an empty field set yields no row, so the operation
does not succeed even though the access rule permits it. -/
theorem single_task_ops_access_cex :
    (∃ t ∈ sampleDb.tasks, t.id = 1 ∧ (false = true ∨ t.user_id = 1)) ∧
    ((Task.update sampleDb 1 1 false ⟨none, none, none, none⟩ 7).2).isSome
      = false := by
  constructor
  · exact ⟨⟨1, "write spec", some "draft it", "pending", "medium", 1, 5, 5⟩,
      by simp [sampleDb], rfl, Or.inr rfl⟩
  · rfl

/-- C4 (amended): `Task.update` reports not-found (returns no row)
exactly when the request contains no updatable field, or no task with the
given id exists that the principal (admin, or owner) may access; in every
other case it returns the updated task. -/
theorem update_notfound_iff (db : Db) (tid uid : Nat) (admin : Bool)
    (req : TaskUpdateReq) (now : Nat) :
    (Task.update db tid uid admin req now).2 = none ↔
      (req.isEmpty = true ∨
        ¬ ∃ t ∈ db.tasks, t.id = tid ∧ (admin = true ∨ t.user_id = uid)) := by
  by_cases hreq : req.isEmpty
  · simp [Task.update, hreq]
  · simp only [Bool.not_eq_true] at hreq
    simp only [Task.update, hreq, Bool.false_eq_true, if_false]
    rw [Option.map_eq_none', ← Option.not_isSome_iff_eq_none]
    rw [filter_head_isSome]
    simp

/-- Counterexample to C4 as stated: task 2 exists and is owned by
principal 2, so neither failure condition of the claim holds, yet an
update with an empty field set returns no row (reported as `NotFound` by
the controller) instead of the updated task. -/
theorem update_notfound_iff_cex :
    (∃ t ∈ sampleDb.tasks, t.id = 2 ∧ (false = true ∨ t.user_id = 2)) ∧
    (Task.update sampleDb 2 2 false ⟨none, none, none, none⟩ 11).2 = none := by
  constructor
  · exact ⟨⟨2, "review spec", none, "in_progress", "high", 2, 9, 9⟩,
      by simp [sampleDb], rfl, Or.inr rfl⟩
  · rfl

/-- With unique task ids, a permitted nonempty update on a member row
returns exactly that row with the `SET` clauses applied. -/
lemma update_ret_of_mem (db : Db) (t : TaskRow) (uid : Nat) (admin : Bool)
    (req : TaskUpdateReq) (now : Nat)
    (hnd : (db.tasks.map (·.id)).Nodup) (ht : t ∈ db.tasks)
    (hauth : (admin || t.user_id == uid) = true)
    (hreq : req.isEmpty = false) :
    (Task.update db t.id uid admin req now).2
      = some (Task.applyUpdate t req now) := by
  simp only [Task.update, hreq, Bool.false_eq_true, if_false]
  have hfilter := filter_by_id_of_nodup db.tasks t
    (fun x => admin || x.user_id == uid) hnd ht
  simp only [] at hfilter
  rw [hfilter, if_pos hauth]
  rfl

/-- C3: a successful update applies exactly the fields present in the
request: every absent field keeps its stored value, every present field
takes the requested value (plus `updated_at := now`); and the round trip
create → update with only `status` → fetch returns the original title,
description and priority with the new status. -/
theorem update_partial_fields (db : Db) (t : TaskRow) (req : TaskUpdateReq)
    (now : Nat)
    (hnd : (db.tasks.map (·.id)).Nodup) (ht : t ∈ db.tasks)
    (hreq : req.isEmpty = false) :
    (Task.update db t.id t.user_id false req now).2
      = some (Task.applyUpdate t req now) ∧
    (req.title = none → (Task.applyUpdate t req now).title = t.title) ∧
    (req.description = none →
      (Task.applyUpdate t req now).description = t.description) ∧
    (req.status = none → (Task.applyUpdate t req now).status = t.status) ∧
    (req.priority = none → (Task.applyUpdate t req now).priority = t.priority) ∧
    (∀ v, req.title = some v → (Task.applyUpdate t req now).title = v) ∧
    (∀ v, req.description = some v →
      (Task.applyUpdate t req now).description = v) ∧
    (∀ v, req.status = some v → (Task.applyUpdate t req now).status = v) ∧
    (∀ v, req.priority = some v → (Task.applyUpdate t req now).priority = v) ∧
    (∀ (n e ti d st0 pr0 s : String) (pw : PasswordValue),
      (Task.findById
        (Task.update
          (Task.create ⟨[⟨7, n, e, pw, "user", 0, 0⟩], []⟩
            ⟨ti, some d, some st0, some pr0⟩ 7 5).1
          1 7 false ⟨none, none, some s, none⟩ 6).1
        1 7 false).map
        (fun r => (r.task.title, r.task.description, r.task.status,
                   r.task.priority))
      = some (ti, some d, s, pr0)) := by
  refine ⟨update_ret_of_mem db t t.user_id false req now hnd ht (by simp) hreq,
    ?_, ?_, ?_, ?_, ?_, ?_, ?_, ?_, ?_⟩
  · intro h; simp [Task.applyUpdate, h]
  · intro h; simp [Task.applyUpdate, h]
  · intro h; simp [Task.applyUpdate, h]
  · intro h; simp [Task.applyUpdate, h]
  · intro v h; simp [Task.applyUpdate, h]
  · intro v h; simp [Task.applyUpdate, h]
  · intro v h; simp [Task.applyUpdate, h]
  · intro v h; simp [Task.applyUpdate, h]
  · intro n e ti d st0 pr0 s pw; rfl

/-- Witness for C3: user 1 updates only the status of task 1 in the
sample store; title, description and priority are untouched. -/
theorem update_partial_fields_witness :
    (Task.update sampleDb 1 1 false ⟨none, none, some "completed", none⟩ 12).2
      = some ⟨1, "write spec", some "draft it", "completed", "medium", 1, 5, 12⟩ :=
  (update_partial_fields sampleDb
    ⟨1, "write spec", some "draft it", "pending", "medium", 1, 5, 5⟩
    ⟨none, none, some "completed", none⟩ 12
    (by decide) (by decide) (by decide)).1

/-- Rewriting passwords commutes with `orderedInsert` for the
creation-time order (the order never inspects the password column). -/
lemma orderedInsert_mapPasswords (f : PasswordValue → PasswordValue)
    (a : UserRow) (l : List UserRow) :
    List.orderedInsert userCreatedDesc { a with password := f a.password }
      (l.map fun u => { u with password := f u.password })
    = (List.orderedInsert userCreatedDesc a l).map
        fun u => { u with password := f u.password } := by
  induction l with
  | nil => rfl
  | cons b l ih =>
    simp only [List.map_cons, List.orderedInsert]
    by_cases h : userCreatedDesc a b
    · have h' : userCreatedDesc { a with password := f a.password }
        { b with password := f b.password } := h
      rw [if_pos h', if_pos h]
      simp
    · have h' : ¬ userCreatedDesc { a with password := f a.password }
        { b with password := f b.password } := h
      rw [if_neg h', if_neg h]
      simp [ih]

/-- Rewriting passwords commutes with the whole sort. -/
lemma insertionSort_mapPasswords (f : PasswordValue → PasswordValue)
    (l : List UserRow) :
    List.insertionSort userCreatedDesc
      (l.map fun u => { u with password := f u.password })
    = (List.insertionSort userCreatedDesc l).map
        fun u => { u with password := f u.password } := by
  induction l with
  | nil => rfl
  | cons a l ih =>
    simp only [List.map_cons, List.insertionSort]
    rw [ih, orderedInsert_mapPasswords]

/-- C10: the user-store operations `create`, `findById`, `findAll` and
`update` return only the `id, name, email, role` and timestamp columns
(the `UserPublic` / `UserUpdateRet` projections): rewriting every stored
password arbitrarily leaves their outputs unchanged.  Only the internal
email lookup used for login returns the stored row itself, password
column included. -/
theorem user_ops_never_return_password (db : Db)
    (f : PasswordValue → PasswordValue) :
    (∀ id, User.findById (mapPasswords f db) id = User.findById db id) ∧
    User.findAll (mapPasswords f db) = User.findAll db ∧
    (∀ id req now, (User.update (mapPasswords f db) id req now).2
        = (User.update db id req now).2) ∧
    (∀ req salt now, (User.create (mapPasswords f db) req salt now).2
        = (User.create db req salt now).2) ∧
    (∀ e u, User.findByEmail db e = some u → u ∈ db.users) := by
  have hcomp : ∀ (p : UserRow → Bool), (∀ u, p { u with password := f u.password } = p u) →
      ∀ l : List UserRow, (l.map fun u => { u with password := f u.password }).filter p
        = (l.filter p).map fun u => { u with password := f u.password } := by
    intro p hp l
    rw [List.filter_map]
    congr 1
    exact List.filter_congr fun u _ => hp u
  refine ⟨?_, ?_, ?_, ?_, ?_⟩
  · intro id
    simp only [User.findById, mapPasswords]
    rw [hcomp (fun u => u.id == id) (fun u => rfl) db.users]
    rw [← List.head?_map, List.map_map, List.head?_map]
    rfl
  · simp only [User.findAll, mapPasswords]
    rw [insertionSort_mapPasswords, List.map_map]
    rfl
  · intro id req now
    by_cases hreq : req.isEmpty
    · simp [User.update, hreq]
    · simp only [Bool.not_eq_true] at hreq
      simp only [User.update, hreq, Bool.false_eq_true, if_false, mapPasswords]
      rw [hcomp (fun u => u.id == id) (fun u => rfl) db.users]
      rw [← List.head?_map, List.map_map, List.head?_map]
      rfl
  · intro req salt now
    have hid : nextUserId (mapPasswords f db) = nextUserId db := by
      simp only [nextUserId, mapPasswords, List.map_map]
      rfl
    simp only [User.create, mkUserRow, UserRow.toPublic, hid]
  · intro e u h
    exact List.mem_of_mem_filter
      (List.mem_of_mem_head? (Option.mem_def.mpr h))

/-- Witness for C10: wiping every stored password to a fixed plaintext
does not change what `findById` returns on the sample store. -/
theorem user_ops_never_return_password_witness :
    User.findById (mapPasswords (fun _ => PasswordValue.plain "x") sampleDb) 1
      = User.findById sampleDb 1 :=
  (user_ops_never_return_password sampleDb
    (fun _ => PasswordValue.plain "x")).1 1

/-- Unfolding the served-request count over one processed request. -/
lemma servedInWindow_cons (t : Nat) (b : Bool) (out : List (Nat × Bool))
    (w : Nat) :
    servedInWindow ((t, b) :: out) w
      = servedInWindow out w
        + (if b && (t / RATE_LIMIT_WINDOW_MS == w) then 1 else 0) := by
  by_cases h : (b && (t / RATE_LIMIT_WINDOW_MS == w)) = true
  · simp [servedInWindow, List.filter_cons, h]
  · simp [servedInWindow, List.filter_cons, h]

/-- Requests strictly after window `w` contribute nothing to it. -/
lemma servedInWindow_zero_of_gt (trace : List Nat) (s : LimiterState)
    (w : Nat) (hw : ∀ t ∈ trace, w < t / RATE_LIMIT_WINDOW_MS) :
    servedInWindow (rlRunFrom s trace) w = 0 := by
  induction trace generalizing s with
  | nil => rfl
  | cons t rest ih =>
    have hne : (t / RATE_LIMIT_WINDOW_MS == w) = false := by
      have := hw t (List.mem_cons_self t rest)
      simp [Nat.ne_of_gt this]
    simp only [rlRunFrom, servedInWindow_cons, hne, Bool.and_false,
      Bool.false_eq_true, if_false, Nat.add_zero]
    exact ih (rlStep s t).1 fun t' ht' => hw t' (List.mem_cons_of_mem t ht')

/-- The key invariant: starting from a state whose current window is no
later than any request of the (time-ordered) trace, the requests served
into any one fixed window — together with what the current window has
already counted — never exceed the ceiling. -/
lemma servedInWindow_le (trace : List Nat) (s : LimiterState) (w : Nat)
    (hmono : List.Pairwise
      (fun a b => a / RATE_LIMIT_WINDOW_MS ≤ b / RATE_LIMIT_WINDOW_MS) trace)
    (hge : ∀ t ∈ trace, s.window ≤ t / RATE_LIMIT_WINDOW_MS) :
    servedInWindow (rlRunFrom s trace) w
      + (if w = s.window then min s.count RATE_LIMIT_MAX else 0)
      ≤ RATE_LIMIT_MAX := by
  induction trace generalizing s with
  | nil =>
    have h0 : servedInWindow (rlRunFrom s []) w = 0 := rfl
    rw [h0]
    by_cases hw : w = s.window
    · rw [if_pos hw]; omega
    · rw [if_neg hw]; omega
  | cons t rest ih =>
    obtain ⟨hpair, hmono'⟩ := List.pairwise_cons.mp hmono
    have hmax : (1 : Nat) ≤ RATE_LIMIT_MAX := by decide
    by_cases h0 : t / RATE_LIMIT_WINDOW_MS = s.window
    · have hstep : rlStep s t
          = (⟨s.window, s.count + 1⟩, decide (s.count + 1 ≤ RATE_LIMIT_MAX)) := by
        simp [rlStep, h0]
      have hge' : ∀ t' ∈ rest,
          (⟨s.window, s.count + 1⟩ : LimiterState).window
            ≤ t' / RATE_LIMIT_WINDOW_MS :=
        fun t' ht' => h0 ▸ hpair t' ht'
      have hrest := ih ⟨s.window, s.count + 1⟩ hmono' hge'
      dsimp only at hrest
      rw [show rlRunFrom s (t :: rest)
            = (t, decide (s.count + 1 ≤ RATE_LIMIT_MAX))
              :: rlRunFrom ⟨s.window, s.count + 1⟩ rest from by
        simp [rlRunFrom, hstep]]
      rw [servedInWindow_cons]
      by_cases hw : w = s.window
      · have hbeq : (t / RATE_LIMIT_WINDOW_MS == w) = true := by
          simp [h0, hw]
        rw [hbeq, if_pos hw]
        rw [if_pos hw] at hrest
        by_cases hc : s.count + 1 ≤ RATE_LIMIT_MAX
        · have hd : decide (s.count + 1 ≤ RATE_LIMIT_MAX) = true := by
            simp [hc]
          rw [hd]
          simp only [Bool.true_and, if_true]
          omega
        · have hd : decide (s.count + 1 ≤ RATE_LIMIT_MAX) = false := by
            simp [hc]
          rw [hd]
          simp only [Bool.false_and, Bool.false_eq_true, if_false, Nat.add_zero]
          omega
      · have hbeq : (t / RATE_LIMIT_WINDOW_MS == w) = false := by
          simp only [beq_eq_false_iff_ne, ne_eq, h0]
          exact fun h => hw h.symm
        rw [hbeq]
        simp only [Bool.and_false, Bool.false_eq_true, if_false, Nat.add_zero]
        rw [if_neg hw]
        rw [if_neg hw] at hrest
        omega
    · have hlt : s.window < t / RATE_LIMIT_WINDOW_MS :=
        Nat.lt_of_le_of_ne (hge t (List.mem_cons_self t rest)) (Ne.symm h0)
      have hstep : rlStep s t
          = (⟨t / RATE_LIMIT_WINDOW_MS, 1⟩, decide (1 ≤ RATE_LIMIT_MAX)) := by
        simp [rlStep, h0]
      have hge' : ∀ t' ∈ rest,
          (⟨t / RATE_LIMIT_WINDOW_MS, 1⟩ : LimiterState).window
            ≤ t' / RATE_LIMIT_WINDOW_MS :=
        fun t' ht' => hpair t' ht'
      have hrest := ih ⟨t / RATE_LIMIT_WINDOW_MS, 1⟩ hmono' hge'
      dsimp only at hrest
      rw [show rlRunFrom s (t :: rest)
            = (t, decide (1 ≤ RATE_LIMIT_MAX))
              :: rlRunFrom ⟨t / RATE_LIMIT_WINDOW_MS, 1⟩ rest from by
        simp [rlRunFrom, hstep]]
      rw [servedInWindow_cons]
      have hd : decide ((1 : Nat) ≤ RATE_LIMIT_MAX) = true := by decide
      rw [hd]
      by_cases hw : w = t / RATE_LIMIT_WINDOW_MS
      · have hbeq : (t / RATE_LIMIT_WINDOW_MS == w) = true := by
          simp [hw]
        rw [hbeq]
        simp only [Bool.true_and, if_true]
        rw [if_neg (show ¬ w = s.window by omega)]
        rw [if_pos hw] at hrest
        omega
      · have hbeq : (t / RATE_LIMIT_WINDOW_MS == w) = false := by
          simp only [beq_eq_false_iff_ne, ne_eq]
          exact fun h => hw h.symm
        rw [hbeq]
        simp only [Bool.and_false, Bool.false_eq_true, if_false, Nat.add_zero]
        by_cases hws : w = s.window
        · rw [if_pos hws]
          have hzero := servedInWindow_zero_of_gt rest
            ⟨t / RATE_LIMIT_WINDOW_MS, 1⟩ w
            (fun t' ht' => lt_of_lt_of_le (hws ▸ hlt) (hpair t' ht'))
          rw [hzero]
          omega
        · rw [if_neg hws]
          rw [if_neg hw] at hrest
          omega

/-- C7 (amended): the ceiling is enforced per fixed 15-minute window (the
memory store resets its counters every `windowMs`), not per sliding
window: over any time-ordered trace at most 100 requests are served whose
time falls in any one fixed window, and a request arriving in the current
window after 100 have been counted is rejected with 429. -/
theorem rate_limit_fixed_window (trace : List Nat)
    (hmono : List.Pairwise (· ≤ ·) trace) :
    (∀ w, servedInWindow (rlRun trace) w ≤ RATE_LIMIT_MAX) ∧
    (∀ (s : LimiterState) (t : Nat), RATE_LIMIT_MAX ≤ s.count →
      t / RATE_LIMIT_WINDOW_MS = s.window → (rlStep s t).2 = false) := by
  constructor
  · intro w
    have hp : List.Pairwise
        (fun a b => a / RATE_LIMIT_WINDOW_MS ≤ b / RATE_LIMIT_WINDOW_MS) trace :=
      hmono.imp fun h => Nat.div_le_div_right h
    have h := servedInWindow_le trace ⟨0, 0⟩ w hp (fun t _ => Nat.zero_le _)
    dsimp only at h
    simp only [rlRun]
    by_cases hw : w = 0
    · rw [if_pos hw] at h; omega
    · rw [if_neg hw] at h; omega
  · intro s t hc hw
    have hstep : rlStep s t
        = (⟨s.window, s.count + 1⟩, decide (s.count + 1 ≤ RATE_LIMIT_MAX)) := by
      simp [rlStep, hw]
    rw [hstep]
    simp only [decide_eq_false_iff_not]
    omega

/-- Witness for C7 (amended) on a concrete three-request trace. -/
theorem rate_limit_fixed_window_witness :
    servedInWindow (rlRun [0, 1, 2]) 0 ≤ RATE_LIMIT_MAX :=
  (rate_limit_fixed_window [0, 1, 2] (by decide)).1 0

set_option maxRecDepth 10000 in
/-- Counterexample to C7 as stated: all 200 requests of `slidingTrace`
are served — none receives 429 — although they all fall within a
two-millisecond span, far inside a single 15-minute sliding window; in
particular the 101st request of that sliding window was served. -/
theorem rate_limit_sliding_cex :
    (servedTimes slidingTrace).length = 200 ∧
    (∀ t ∈ servedTimes slidingTrace, 899999 ≤ t ∧ t ≤ 900000) ∧
    900000 - 899999 < RATE_LIMIT_WINDOW_MS := by
  exact ⟨by decide, by decide, by decide⟩

/-- Witness for C8 at a concrete registration. -/
theorem register_stores_bcrypt_hash_witness :
    (mkUserRow sampleDb ⟨"carol", "carol@x.com", "secret1", none⟩ 7 2).password
      = PasswordValue.bcrypt "secret1" 10 7 :=
  (register_stores_bcrypt_hash sampleDb
    ⟨"carol", "carol@x.com", "secret1", none⟩ 7 2).2.1
